import Mathlib

/-!
Verification of the debug-session orchestration engine of the
`chpatil-vscode-mcp-extension` repository, against its natural-language
specification.  Each section embeds one source component as executable Lean
definitions, translated directly from the TypeScript/JavaScript source, and
proves (or refutes) the claims about it.
-/

set_option maxHeartbeats 1000000

namespace Spec2Proof

/-! ## 1. Handshake Bootstrap (`bootstrap.js`)

The bootstrap script keeps a `hasRun` flag; on every IPC message whose
`command` field equals `"runJestTests"` it calls `runJest`, which is a no-op
when `hasRun` is already set and otherwise sets it and starts Jest
(`require(jestCliPath)`).  We model an IPC message by its `command` field
(`none` covers a null message or one without a recognized command, which the
handler ignores), and count how many times the Jest workload is started. -/

structure BootState where
  hasRun : Bool
  startCount : Nat
deriving Repr, DecidableEq

/-- `runJest()` from `bootstrap.js`: returns immediately when `hasRun` is
already set, otherwise sets it and starts the Jest workload once. -/
def runJest (st : BootState) : BootState :=
  if st.hasRun then st else { hasRun := true, startCount := st.startCount + 1 }

/-- The `process.on('message', ...)` handler: only a message whose command is
`runJestTests` reaches `runJest`; every other message is logged and ignored. -/
def bootStep (st : BootState) (msg : Option String) : BootState :=
  if msg = some "runJestTests" then runJest st else st

/-- Deliver a sequence of IPC messages to a freshly started bootstrap. -/
def bootRun (msgs : List (Option String)) : BootState :=
  msgs.foldl bootStep { hasRun := false, startCount := 0 }

theorem bootStep_preserves (st : BootState) (msg : Option String)
    (h : st.startCount = if st.hasRun then 1 else 0) :
    (bootStep st msg).startCount = if (bootStep st msg).hasRun then 1 else 0 := by
  unfold bootStep runJest
  split <;> [skip; exact h]
  split <;> simp_all

theorem bootRun_foldl_invariant (msgs : List (Option String)) (st : BootState)
    (h : st.startCount = if st.hasRun then 1 else 0) :
    (msgs.foldl bootStep st).startCount
      = if (msgs.foldl bootStep st).hasRun then 1 else 0 := by
  induction msgs generalizing st with
  | nil => simpa using h
  | cons m ms ih => exact ih _ (bootStep_preserves st m h)

theorem bootRun_hasRun_iff (msgs : List (Option String)) (st : BootState) :
    (msgs.foldl bootStep st).hasRun
      = (st.hasRun || msgs.any (· = some "runJestTests")) := by
  induction msgs generalizing st with
  | nil => simp
  | cons m ms ih =>
    simp only [List.foldl_cons, List.any_cons, ih]
    unfold bootStep runJest
    by_cases hm : m = some "runJestTests" <;> by_cases hr : st.hasRun <;>
      simp_all

/-- C3: the guarded Jest workload is started only after a message with command
`runJestTests` has been received, and exactly once even if that message is
delivered two or more times; a second delivery hits the `hasRun` guard and is
a no-op, not a restart. -/
theorem bootstrap_starts_once (msgs : List (Option String)) (st : BootState) :
    (bootRun msgs).startCount ≤ 1
    ∧ ((∀ m ∈ msgs, m ≠ some "runJestTests") → (bootRun msgs).startCount = 0)
    ∧ ((some "runJestTests") ∈ msgs → (bootRun msgs).startCount = 1)
    ∧ (st.hasRun = true → bootStep st (some "runJestTests") = st) := by
  have hinv := bootRun_foldl_invariant msgs { hasRun := false, startCount := 0 } rfl
  have hiff := bootRun_hasRun_iff msgs { hasRun := false, startCount := 0 }
  refine ⟨?_, ?_, ?_, ?_⟩
  · unfold bootRun; rw [hinv]; split <;> omega
  · intro hnone
    unfold bootRun; rw [hinv, hiff]
    have : msgs.any (· = some "runJestTests") = false := by
      simp only [List.any_eq_false, decide_eq_true_eq]
      intro m hm; exact hnone m hm
    simp [this]
  · intro hmem
    unfold bootRun; rw [hinv, hiff]
    have : msgs.any (· = some "runJestTests") = true := by
      simp only [List.any_eq_true, decide_eq_true_eq]
      exact ⟨_, hmem, rfl⟩
    simp [this]
  · intro hr
    unfold bootStep runJest
    simp [hr]

/-- Witness for C3: two deliveries of the start message start Jest exactly
once, and a run with no start message starts nothing. -/
theorem bootstrap_starts_once_witness :
    (bootRun [some "runJestTests", some "runJestTests"]).startCount = 1
    ∧ (bootRun [some "other", none]).startCount = 0 :=
  ⟨(bootstrap_starts_once [some "runJestTests", some "runJestTests"]
      { hasRun := false, startCount := 0 }).2.2.1 (by decide),
   (bootstrap_starts_once [some "other", none]
      { hasRun := false, startCount := 0 }).2.1 (by decide)⟩

/-! ## 2. Terminal chunk normalization (`formatTerminalChunk`, `run_cmd_pty.ts`)

`formatTerminalChunk` performs, in order:
1. `chunk.replace(/\r(?!\n)/g, '\n')` — every carriage return not immediately
   followed by a line feed becomes a line feed;
2. `split('\n')`;
3. per line, `line.replace(/[\t ]+(?=(?:\x1B\[[0-9;]*m)*$)/, '')` — remove the
   leftmost run of tabs/spaces that is followed only by ANSI SGR escape
   sequences up to the end of the line (first match only);
4. drop empty lines;
5. `join('\r\n')`.

We embed each step at the character-list level.  For step 3 note that a match
of `[\t ]+` can only succeed when it consumes a whitespace run entirely (a
shorter greedy backtrack leaves a whitespace character in front of the
lookahead, which `(?:\x1B\[[0-9;]*m)*$` rejects), so scanning character by
character and testing `ansiSeqs` on the remainder after the current
whitespace run reproduces the regex semantics exactly. -/

/-- A character matched by the `[\t ]` class. -/
def isWsChar (c : Char) : Bool := c = '\t' || c = ' '

/-- `ansiAux l inside` decides whether `l` parses as the remainder of
`(?:\x1B\[[0-9;]*m)*` anchored at end of string; `inside` records whether we
are inside the `[0-9;]*m` body of a sequence. -/
def ansiAux : List Char → Bool → Bool
  | [], inside => !inside
  | '\x1b' :: '[' :: r, false => ansiAux r true
  | _ :: _, false => false
  | 'm' :: r, true => ansiAux r false
  | c :: r, true => if c.isDigit || c = ';' then ansiAux r true else false

/-- Does `l` consist solely of ANSI SGR sequences (`ESC [ … m`)? -/
def ansiSeqs (l : List Char) : Bool := ansiAux l false

/-- Step 1: `replace(/\r(?!\n)/g, '\n')`. -/
def replCR : List Char → List Char
  | [] => []
  | '\r' :: '\n' :: rest => '\r' :: '\n' :: replCR rest
  | '\r' :: rest => '\n' :: replCR rest
  | c :: rest => c :: replCR rest

/-- Step 2: JavaScript `split('\n')` (keeps empty pieces). -/
def splitLF : List Char → List (List Char)
  | [] => [[]]
  | '\n' :: rest => [] :: splitLF rest
  | c :: rest =>
    match splitLF rest with
    | [] => [[c]]
    | l :: ls => (c :: l) :: ls

/-- Step 3: `line.replace(/[\t ]+(?=(?:\x1B\[[0-9;]*m)*$)/, '')`. -/
def trimLine : List Char → List Char
  | [] => []
  | c :: rest =>
    if isWsChar c then
      let t := rest.dropWhile isWsChar
      if ansiSeqs t then t else c :: trimLine rest
    else c :: trimLine rest

/-- Step 5: JavaScript `join('\r\n')`. -/
def joinCRLF : List (List Char) → List Char
  | [] => []
  | [l] => l
  | l :: ls => l ++ '\r' :: '\n' :: joinCRLF ls

/-- `formatTerminalChunk` from `run_cmd_pty.ts`. -/
def formatTerminalChunk (s : String) : String :=
  let normalised := replCR s.data
  let lines := (splitLF normalised).map trimLine
  String.mk (joinCRLF (lines.filter (fun l => !l.isEmpty)))

/-- Removing the maximal trailing whitespace run (what step 3 amounts to on
escape-free lines). -/
def dropTrailing (l : List Char) : List Char :=
  (l.reverse.dropWhile isWsChar).reverse

theorem replCR_of_no_cr (l : List Char) (h : '\r' ∉ l) : replCR l = l := by
  induction l with
  | nil => rfl
  | cons c rest ih =>
    have hc : c ≠ '\r' := fun hec => h (hec ▸ List.mem_cons_self c rest)
    have hrest : '\r' ∉ rest := fun hm => h (List.mem_cons_of_mem c hm)
    rw [replCR.eq_def]
    split <;> simp_all

theorem splitLF_of_no_lf (l : List Char) (h : '\n' ∉ l) : splitLF l = [l] := by
  induction l with
  | nil => rfl
  | cons c rest ih =>
    have hc : c ≠ '\n' := fun hec => h (hec ▸ List.mem_cons_self c rest)
    have hrest : '\n' ∉ rest := fun hm => h (List.mem_cons_of_mem c hm)
    rw [splitLF.eq_def]
    split
    · simp_all
    · simp_all
    · rename_i x c' rest' heq hne
      injection hne with h1 h2
      subst h1; subst h2
      rw [ih hrest]

@[simp] theorem ansiSeqs_nil : ansiSeqs [] = true := rfl

theorem ansiSeqs_of_esc_free (l : List Char) (h : '\x1b' ∉ l) :
    ansiSeqs l = true ↔ l = [] := by
  cases l with
  | nil => simp [ansiSeqs, ansiAux]
  | cons c rest =>
    have hc : c ≠ '\x1b' := fun hec => h (hec ▸ List.mem_cons_self c rest)
    constructor
    · intro habs
      exfalso
      rw [ansiSeqs, ansiAux.eq_def] at habs
      split at habs <;> simp_all
    · intro habs; cases habs

theorem dropTrailing_cons (c : Char) (rest : List Char) :
    dropTrailing (c :: rest)
      = if (c :: rest).all isWsChar then [] else c :: dropTrailing rest := by
  unfold dropTrailing
  rw [List.reverse_cons, List.dropWhile_append]
  by_cases hrest : rest.all isWsChar
  · have hnil : rest.reverse.dropWhile isWsChar = [] := by
      rw [List.dropWhile_eq_nil_iff]
      intro x hx
      exact (List.all_eq_true.mp hrest) x (List.mem_reverse.mp hx)
    rw [hnil]
    by_cases hc : isWsChar c
    · simp [hc, hrest, List.dropWhile_cons, List.all_cons]
    · simp [hc, hrest, List.dropWhile_cons, List.all_cons, dropTrailing, hnil]
  · have hne : rest.reverse.dropWhile isWsChar ≠ [] := by
      rw [Ne, List.dropWhile_eq_nil_iff]
      intro hall
      exact hrest (List.all_eq_true.mpr fun x hx =>
        hall x (List.mem_reverse.mpr hx))
    have : (c :: rest).all isWsChar = false := by
      rcases List.all_eq_false.mp (Bool.eq_false_iff.mpr hrest) with ⟨x, hx, hxw⟩
      exact List.all_eq_false.mpr ⟨x, List.mem_cons_of_mem c hx, hxw⟩
    simp only [this, if_false]
    rw [if_neg (by simpa using hne)]
    simp [dropTrailing]

theorem trimLine_of_esc_free (l : List Char) (h : '\x1b' ∉ l) :
    trimLine l = dropTrailing l := by
  induction l with
  | nil => rfl
  | cons c rest ih =>
    have hrest : '\x1b' ∉ rest := fun hm => h (List.mem_cons_of_mem c hm)
    have htfree : '\x1b' ∉ rest.dropWhile isWsChar := fun hm =>
      hrest ((List.dropWhile_sublist isWsChar (l := rest)).subset hm)
    rw [trimLine, dropTrailing_cons]
    by_cases hc : isWsChar c
    · simp only [hc, if_true]
      by_cases ht : ansiSeqs (rest.dropWhile isWsChar) = true
      · have hnil : rest.dropWhile isWsChar = [] :=
          (ansiSeqs_of_esc_free _ htfree).mp ht
        have hall : rest.all isWsChar :=
          List.all_eq_true.mpr (List.dropWhile_eq_nil_iff.mp hnil)
        simp [ht, hnil, List.all_cons, hc, hall]
      · have hnotall : (c :: rest).all isWsChar = false := by
          by_contra hcon
          have hall : (c :: rest).all isWsChar := by
            revert hcon; cases h' : (c :: rest).all isWsChar <;> simp_all
          have : rest.dropWhile isWsChar = [] := by
            rw [List.dropWhile_eq_nil_iff]
            intro x hx
            exact (List.all_eq_true.mp hall) x (List.mem_cons_of_mem c hx)
          exact ht ((ansiSeqs_of_esc_free _ htfree).mpr this)
        simp only [Bool.not_eq_true] at ht
        simp [ht, hnotall, ih hrest]
    · have hnotall : (c :: rest).all isWsChar = false := by
        simp [List.all_cons, hc]
      simp [hc, hnotall, ih hrest]

theorem dropWhile_idem (p : Char → Bool) (l : List Char) :
    (l.dropWhile p).dropWhile p = l.dropWhile p := by
  induction l with
  | nil => rfl
  | cons c rest ih =>
    rw [List.dropWhile_cons]
    by_cases hc : p c
    · simp [hc, ih]
    · simp [List.dropWhile_cons, hc]

theorem dropTrailing_idem (l : List Char) :
    dropTrailing (dropTrailing l) = dropTrailing l := by
  unfold dropTrailing
  rw [List.reverse_reverse, dropWhile_idem]

theorem mem_dropTrailing {x : Char} {l : List Char}
    (h : x ∈ dropTrailing l) : x ∈ l := by
  unfold dropTrailing at h
  have := (List.dropWhile_sublist isWsChar (l := l.reverse)).subset
    (List.mem_reverse.mp h)
  exact List.mem_reverse.mp this

/-- On chunks with no carriage return and no line feed, `formatTerminalChunk`
reduces to trimming the single line (and dropping it when it becomes blank). -/
theorem formatTerminalChunk_single (s : String)
    (hr : '\r' ∉ s.data) (hn : '\n' ∉ s.data) :
    formatTerminalChunk s
      = if trimLine s.data = [] then "" else String.mk (trimLine s.data) := by
  simp only [formatTerminalChunk]
  rw [replCR_of_no_cr s.data hr, splitLF_of_no_lf s.data hn]
  by_cases h : trimLine s.data = []
  · simp [h, joinCRLF]
  · simp [h, joinCRLF]

/-- C8 counterexample: `formatTerminalChunk` is not idempotent.  On the chunk
`"\r\n"` one application yields `"\r"` (the CRLF splits into the line `"\r"`
and a blank line which is dropped), while a second application turns that lone
carriage return into a line feed and then drops the resulting blank lines,
yielding `""`. -/
theorem formatTerminalChunk_not_idempotent :
    formatTerminalChunk (formatTerminalChunk "\r\n")
      ≠ formatTerminalChunk "\r\n" := by
  decide

/-- C8 amended: `formatTerminalChunk` is idempotent on chunks containing no
carriage return, no line feed and no escape character.  (A CR or LF in the
chunk — or one manufactured by the CRLF join — defeats idempotence, as does a
whitespace run sitting between two ANSI sequences.) -/
theorem formatTerminalChunk_idempotent_plain (s : String)
    (hr : '\r' ∉ s.data) (hn : '\n' ∉ s.data) (he : '\x1b' ∉ s.data) :
    formatTerminalChunk (formatTerminalChunk s) = formatTerminalChunk s := by
  have htrim : trimLine s.data = dropTrailing s.data :=
    trimLine_of_esc_free s.data he
  rw [formatTerminalChunk_single s hr hn]
  by_cases h : trimLine s.data = []
  · simp only [h, if_true]
    rfl
  · simp only [h, if_false]
    have hmem : ∀ x ∈ (String.mk (trimLine s.data)).data, x ∈ s.data := by
      intro x hx
      simp only [htrim] at hx
      exact mem_dropTrailing hx
    have hr' : '\r' ∉ (String.mk (trimLine s.data)).data := fun hm => hr (hmem _ hm)
    have hn' : '\n' ∉ (String.mk (trimLine s.data)).data := fun hm => hn (hmem _ hm)
    have he' : '\x1b' ∉ (String.mk (trimLine s.data)).data := fun hm => he (hmem _ hm)
    rw [formatTerminalChunk_single _ hr' hn']
    have hdata : (String.mk (trimLine s.data)).data = trimLine s.data := rfl
    have htrim2 : trimLine (String.mk (trimLine s.data)).data = trimLine s.data := by
      rw [hdata, htrim, trimLine_of_esc_free _ (fun hm => he (mem_dropTrailing hm)),
        dropTrailing_idem]
    rw [htrim2, if_neg h]

/-- Witness for C8 amended: a plain single-line chunk with trailing blanks
normalizes to the same thing under one or two applications. -/
theorem formatTerminalChunk_idempotent_plain_witness :
    formatTerminalChunk (formatTerminalChunk "PASS src/sum.test.js  ")
      = formatTerminalChunk "PASS src/sum.test.js  " :=
  formatTerminalChunk_idempotent_plain "PASS src/sum.test.js  "
    (by decide) (by decide) (by decide)

/-! ## 3. Pattern Interceptor

Two implementations exist.  In `executeCommandInPty` (`run_cmd_pty.ts`) the
`data` handlers for stdout and stderr are identical: format the chunk, append
it to `output`, and call `onIntercept` whenever
`options.interceptPattern?.test(text)` holds of the *newly formatted chunk*
`text`.  In `runCmdInTerminal` (`ptyHelper.ts`) the `onData` handler appends
the raw chunk to `output` and calls `finish` when `wait?.until?.test(output)`
holds of the *accumulated output*.  The regular-expression engine is external;
we model a (stateless, non-global) pattern as a boolean predicate `P` on
strings and instantiate it with an executable substring test where a concrete
pattern is needed. -/

/-- Executable substring containment, standing in for a concrete regular
expression that matches a fixed literal. -/
def hasSub (needle : List Char) : List Char → Bool
  | [] => needle.isEmpty
  | c :: rest => needle.isPrefixOf (c :: rest) || hasSub needle rest

structure PtyState where
  output : String
  fireCount : Nat
deriving Repr, DecidableEq

/-- One `data` event in `executeCommandInPty` (stdout and stderr use the same
handler body): format the chunk, accumulate it, test the pattern against the
new chunk only, and invoke the intercept callback on a match. -/
def ptyStep (P : String → Bool) (st : PtyState) (chunk : String) : PtyState :=
  let text := formatTerminalChunk chunk
  { output := st.output ++ text,
    fireCount := if P text then st.fireCount + 1 else st.fireCount }

/-- Deliver a sequence of output chunks to `executeCommandInPty`. -/
def ptyRun (P : String → Bool) (chunks : List String) : PtyState :=
  chunks.foldl (ptyStep P) { output := "", fireCount := 0 }

structure CmdState where
  output : String
  finished : Bool
deriving Repr, DecidableEq

/-- One `onData` event in `runCmdInTerminal`: accumulate the raw chunk and
finish (resolve and kill the process) when the pattern matches the whole
accumulated output; once finished, the process is killed and no further
chunks are processed. -/
def cmdStep (P : String → Bool) (st : CmdState) (chunk : String) : CmdState :=
  if st.finished then st
  else
    let out := st.output ++ chunk
    { output := out, finished := P out }

/-- Deliver a sequence of output chunks to `runCmdInTerminal`. -/
def cmdRun (P : String → Bool) (chunks : List String) : CmdState :=
  chunks.foldl (cmdStep P) { output := "", finished := false }

/-- C1 counterexample: the ready pattern `Debugger listening on ws://` split
across two chunks is never detected by `executeCommandInPty`, because each
chunk is tested in isolation; the concatenated output does contain the
pattern. -/
theorem pty_misses_straddled_match :
    (ptyRun (fun s => hasSub "Debugger listening on ws://".data s.data)
        ["Debugger listening on ", "ws://127.0.0.1:9229/abc"]).fireCount = 0
    ∧ hasSub "Debugger listening on ws://".data
        ("Debugger listening on " ++ "ws://127.0.0.1:9229/abc").data = true := by
  constructor
  · decide
  · decide

theorem cmd_foldl_finished (P : String → Bool) (l : List String) (st : CmdState)
    (h : st.finished = true) : l.foldl (cmdStep P) st = st := by
  induction l with
  | nil => rfl
  | cons c cs ih => simpa [cmdStep, h] using ih

theorem cmd_fires_aux (P : String → Bool) (chunks : List String) :
    ∀ st : CmdState, chunks ≠ [] → st.finished = false →
      P (chunks.foldl (· ++ ·) st.output) = true →
      (chunks.foldl (cmdStep P) st).finished = true := by
  induction chunks with
  | nil => intro st hne; exact absurd rfl hne
  | cons c cs ih =>
    intro st _ hfin hP
    by_cases hcs : cs = []
    · subst hcs
      simp only [List.foldl_cons, List.foldl_nil] at hP ⊢
      simp [cmdStep, hfin, hP]
    · by_cases hc : P (st.output ++ c) = true
      · have : (cs.foldl (cmdStep P)
            { output := st.output ++ c, finished := P (st.output ++ c) }).finished
              = true := by
          rw [cmd_foldl_finished P cs _ (by simpa using hc)]
          simpa using hc
        simpa [cmdStep, hfin] using this
      · have hstep : cmdStep P st c
            = { output := st.output ++ c, finished := P (st.output ++ c) } := by
          simp [cmdStep, hfin]
      -- after an unsuccessful test the fold continues on the grown output
        simp only [List.foldl_cons, hstep]
        exact ih _ hcs (by simpa using hc) (by simpa using hP)

theorem pty_fireCount_mono (P : String → Bool) (l : List String) (st : PtyState) :
    st.fireCount ≤ (l.foldl (ptyStep P) st).fireCount := by
  induction l generalizing st with
  | nil => exact le_refl _
  | cons c cs ih =>
    refine le_trans ?_ (ih (ptyStep P st c))
    simp only [ptyStep]
    split <;> omega

theorem pty_fires_of_chunk_match (P : String → Bool) (chunks : List String) :
    ∀ st : PtyState, (∃ c ∈ chunks, P (formatTerminalChunk c) = true) →
      1 ≤ (chunks.foldl (ptyStep P) st).fireCount := by
  induction chunks with
  | nil => rintro st ⟨c, hc, _⟩; cases hc
  | cons c' cs ih =>
    rintro st ⟨c, hc, hP⟩
    rcases List.mem_cons.mp hc with rfl | hmem
    · refine le_trans ?_ (pty_fireCount_mono P cs (ptyStep P st c))
      simp [ptyStep, hP]
    · exact ih (ptyStep P st c') ⟨c, hmem, hP⟩

/-- C1 amended: `runCmdInTerminal` tests the pattern against the entire
accumulated output after every chunk, so any nonempty chunk sequence whose
concatenation matches makes it finish; `executeCommandInPty`, by contrast,
tests only the newly formatted chunk, so it is only guaranteed to fire when
the pattern already matches a single formatted chunk (a match that straddles
a chunk boundary is missed there — see the counterexample). -/
theorem interceptor_fires_on_accumulated_output (P : String → Bool)
    (chunks : List String) :
    (chunks ≠ [] → P (chunks.foldl (· ++ ·) "") = true →
      (cmdRun P chunks).finished = true)
    ∧ ((∃ c ∈ chunks, P (formatTerminalChunk c) = true) →
      1 ≤ (ptyRun P chunks).fireCount) := by
  constructor
  · intro hne hP
    exact cmd_fires_aux P chunks _ hne rfl hP
  · intro hex
    exact pty_fires_of_chunk_match P chunks _ hex

/-- Witness for C1 amended: the ready line split across two chunks finishes
`runCmdInTerminal`, and a single matching chunk fires `executeCommandInPty`. -/
theorem interceptor_fires_on_accumulated_output_witness :
    (cmdRun (fun s => hasSub "Debugger listening on ws://".data s.data)
        ["Debugger listening on ", "ws://127.0.0.1:9229/abc"]).finished = true
    ∧ 1 ≤ (ptyRun (fun s => hasSub "Debugger listening on ws://".data s.data)
        ["Debugger listening on ws://127.0.0.1:9229/abc"]).fireCount :=
  ⟨(interceptor_fires_on_accumulated_output _ _).1 (by decide) (by decide),
   (interceptor_fires_on_accumulated_output _ _).2
     ⟨"Debugger listening on ws://127.0.0.1:9229/abc", by decide, by decide⟩⟩

/-- C2 counterexample: `executeCommandInPty` has no one-shot guard on its
intercept callback.  Two chunks that each match the pattern make the callback
fire twice, refuting "fires at most once per rule instance". -/
theorem pty_intercept_fires_twice :
    (ptyRun (fun s => hasSub "Debugger listening on ws://".data s.data)
        ["Debugger listening on ws://127.0.0.1:9229/abc",
         "Debugger listening on ws://127.0.0.1:9229/def"]).fireCount = 2 := by
  decide

/-- C2 amended: in `executeCommandInPty` the intercept callback fires once per
delivered chunk (stdout or stderr) whose formatted text matches the pattern —
at most once per chunk, but with no once-per-instance guard, so it fires again
whenever a later chunk also matches. -/
theorem pty_intercept_fires_per_matching_chunk (P : String → Bool)
    (chunks : List String) :
    (ptyRun P chunks).fireCount
      = chunks.countP (fun c => P (formatTerminalChunk c)) := by
  suffices h : ∀ st : PtyState,
      (chunks.foldl (ptyStep P) st).fireCount
        = st.fireCount + chunks.countP (fun c => P (formatTerminalChunk c)) by
    simpa using h { output := "", fireCount := 0 }
  induction chunks with
  | nil => intro st; simp
  | cons c cs ih =>
    intro st
    rw [List.foldl_cons, ih, List.countP_cons]
    simp only [ptyStep]
    cases hP : P (formatTerminalChunk c) <;> [simp [hP]; (simp [hP]; omega)]

/-! ## 4. Event-strategy Stop Detector (`waitForNextStop`, `debug_jest_test.ts`)

The tracker registered by `waitForNextStop` reacts to `stopped` DAP events:
with `skipEntry` (default `true`) a stop with reason `entry` triggers one
`continue` request for the reported thread and keeps listening; any other
stop fetches the top stack frame and resolves with a textual pause summary
(or rejects when the `stackTrace` request throws).  `onWillStopSession`
rejects with a session-terminated error when nothing has resolved yet.  A
`done` flag makes the promise resolve or reject exactly once.

The debug adapter is external: each `stopped` event carries the adapter's
reply to the `stackTrace` request the handler then issues. -/

structure Frame where
  sourcePath : Option String
  sourceName : Option String
  line : Option Nat
  column : Option Nat
  name : Option String
deriving Repr, DecidableEq

/-- Messages the tracker observes, with the environment's `stackTrace` reply
attached to each `stopped` event (`.error` models a thrown request). -/
inductive TrackerEvent where
  | stopped (threadId : Nat) (reason : String) (description : Option String)
      (stRsp : Except String (List Frame))
  | willStop
  | other
deriving Repr

inductive WaitOutcome where
  | pending
  | resolved (summary : String)
  | rejected (err : String)
deriving Repr, DecidableEq

structure EvState where
  done : Bool
  outcome : WaitOutcome
  continues : List Nat
deriving Repr, DecidableEq

/-- `rsp.stackFrames?.[0] ?? {}` — a missing frame behaves like an empty
object whose fields are all absent. -/
def emptyFrame : Frame :=
  { sourcePath := none, sourceName := none, line := none, column := none,
    name := none }

/-- `f.source?.path ?? f.source?.name ?? '<unknown>'`. -/
def frameSrc (f : Frame) : String :=
  ((f.sourcePath).orElse (fun _ => f.sourceName)).getD "<unknown>"

/-- `${description ? ` – ${description}` : ''}` — JavaScript renders the
description only when it is truthy, so an empty description is omitted. -/
def descPart : Option String → String
  | some d => if d = "" then "" else " – " ++ d
  | none => ""

/-- The template string built on a qualifying stop. -/
def pauseSummary (reason : String) (description : Option String) (src : String)
    (line col : Nat) (fn : String) : String :=
  "🛑 Debugger stopped\n" ++ "• reason : " ++ reason ++ descPart description ++
    "\n" ++ "• at     : " ++ src ++ ":" ++ toString line ++ ":" ++
    toString col ++ "\n" ++ "• frame  : " ++ fn

/-- The pause summary textually contains the stop reason, source path, line,
column and frame name. -/
theorem pauseSummary_mentions (reason : String) (description : Option String)
    (src : String) (line col : Nat) (fn : String) :
    reason.data <:+: (pauseSummary reason description src line col fn).data
    ∧ src.data <:+: (pauseSummary reason description src line col fn).data
    ∧ (toString line).data <:+: (pauseSummary reason description src line col fn).data
    ∧ (toString col).data <:+: (pauseSummary reason description src line col fn).data
    ∧ fn.data <:+: (pauseSummary reason description src line col fn).data := by
  refine ⟨⟨("🛑 Debugger stopped\n" ++ "• reason : ").data,
      (descPart description ++ "\n" ++ "• at     : " ++ src ++ ":" ++
        toString line ++ ":" ++ toString col ++ "\n" ++ "• frame  : " ++ fn).data, ?_⟩,
    ⟨("🛑 Debugger stopped\n" ++ "• reason : " ++ reason ++
        descPart description ++ "\n" ++ "• at     : ").data,
      (":" ++ toString line ++ ":" ++ toString col ++ "\n" ++
        "• frame  : " ++ fn).data, ?_⟩,
    ⟨("🛑 Debugger stopped\n" ++ "• reason : " ++ reason ++
        descPart description ++ "\n" ++ "• at     : " ++ src ++ ":").data,
      (":" ++ toString col ++ "\n" ++ "• frame  : " ++ fn).data, ?_⟩,
    ⟨("🛑 Debugger stopped\n" ++ "• reason : " ++ reason ++
        descPart description ++ "\n" ++ "• at     : " ++ src ++ ":" ++
        toString line ++ ":").data,
      ("\n" ++ "• frame  : " ++ fn).data, ?_⟩,
    ⟨("🛑 Debugger stopped\n" ++ "• reason : " ++ reason ++
        descPart description ++ "\n" ++ "• at     : " ++ src ++ ":" ++
        toString line ++ ":" ++ toString col ++ "\n" ++ "• frame  : ").data,
      [], ?_⟩⟩ <;>
    simp [pauseSummary, List.append_assoc]

/-- `reject(new Error('Debug session terminated before hitting a breakpoint.'))` -/
def sessionTerminatedMsg : String :=
  "Debug session terminated before hitting a breakpoint."

/-- `reject(new Error('Timed out while waiting for debugger to stop'))` in the
polling strategy (`breakpoint_utility.ts`). -/
def pollTimeoutMsg : String :=
  "Timed out while waiting for debugger to stop"

/-- The event-strategy default: `const { skipEntry = true } = opts ?? {}`. -/
def skipEntryDefault : Bool := true

/-- One tracker callback invocation of `waitForNextStop`. -/
def evStep (skipEntry : Bool) (st : EvState) (e : TrackerEvent) : EvState :=
  match e with
  | .stopped tid reason description stRsp =>
    if st.done then st
    else if reason = "entry" && skipEntry then
      { st with continues := st.continues ++ [tid] }
    else
      match stRsp with
      | .ok frames =>
        let f := frames.headD emptyFrame
        { done := true,
          outcome := .resolved (pauseSummary reason description (frameSrc f)
            (f.line.getD 0) (f.column.getD 0) (f.name.getD "<anonymous>")),
          continues := st.continues }
      | .error err =>
        { done := true, outcome := .rejected err, continues := st.continues }
  | .willStop =>
    if st.done then st
    else { done := true, outcome := .rejected sessionTerminatedMsg,
           continues := st.continues }
  | .other => st

def evInit : EvState := { done := false, outcome := .pending, continues := [] }

/-- Deliver a sequence of tracker events to a fresh `waitForNextStop` wait. -/
def evRun (skipEntry : Bool) (events : List TrackerEvent) : EvState :=
  events.foldl (evStep skipEntry) evInit

/-- C4: with the default `skipEntry = true`, a `stopped` event with reason
`entry` issues exactly one `continue` request for the reported thread and
leaves the wait pending; a subsequent `stopped` event with any other reason
resolves the wait with a pause summary containing the reason, source path,
line, column and frame name of the top stack frame. -/
theorem event_strategy_entry_then_stop
    (tid1 tid2 L C : Nat) (d1 d2 : Option String)
    (rsp1 : Except String (List Frame)) (r2 p fn : String) (f : Frame)
    (rest : List Frame) (hr2 : r2 ≠ "entry") (hp : f.sourcePath = some p)
    (hl : f.line = some L) (hc : f.column = some C) (hn : f.name = some fn) :
    evRun skipEntryDefault [.stopped tid1 "entry" d1 rsp1]
      = { done := false, outcome := .pending, continues := [tid1] }
    ∧ evRun skipEntryDefault
        [.stopped tid1 "entry" d1 rsp1, .stopped tid2 r2 d2 (.ok (f :: rest))]
      = { done := true,
          outcome := .resolved (pauseSummary r2 d2 p L C fn),
          continues := [tid1] }
    ∧ r2.data <:+: (pauseSummary r2 d2 p L C fn).data
    ∧ p.data <:+: (pauseSummary r2 d2 p L C fn).data
    ∧ (toString L).data <:+: (pauseSummary r2 d2 p L C fn).data
    ∧ (toString C).data <:+: (pauseSummary r2 d2 p L C fn).data
    ∧ fn.data <:+: (pauseSummary r2 d2 p L C fn).data := by
  obtain ⟨m1, m2, m3, m4, m5⟩ := pauseSummary_mentions r2 d2 p L C fn
  refine ⟨?_, ?_, m1, m2, m3, m4, m5⟩
  · simp [evRun, evStep, evInit, skipEntryDefault]
  · simp [evRun, evStep, evInit, skipEntryDefault, hr2, frameSrc, hp, hl, hc,
      hn, Option.orElse]

/-- Witness for C4: an entry stop on thread 7 followed by a breakpoint stop
with a concrete top frame resolves with that frame's summary after a single
continue request. -/
theorem event_strategy_entry_then_stop_witness :
    evRun skipEntryDefault
        [.stopped 7 "entry" none (.ok []),
         .stopped 7 "breakpoint" none
           (.ok [{ sourcePath := some "/ws/tests/sum.test.js",
                   sourceName := none, line := some 12, column := some 3,
                   name := some "sum" }])]
      = { done := true,
          outcome := .resolved
            (pauseSummary "breakpoint" none "/ws/tests/sum.test.js" 12 3 "sum"),
          continues := [7] } :=
  (event_strategy_entry_then_stop 7 7 12 3 none none (.ok [])
    "breakpoint" "/ws/tests/sum.test.js" "sum"
    { sourcePath := some "/ws/tests/sum.test.js", sourceName := none,
      line := some 12, column := some 3, name := some "sum" } []
    (by decide) rfl rfl rfl rfl).2.1

/-- C9: if the session stops (terminates) before any qualifying stop has been
observed, the event-strategy wait rejects with the session-terminated error,
which is distinct from the timeout error of the stop-wait. -/
theorem event_strategy_session_terminated (events : List TrackerEvent)
    (h : (evRun skipEntryDefault events).done = false) :
    (evRun skipEntryDefault (events ++ [.willStop])).outcome
        = .rejected sessionTerminatedMsg
    ∧ sessionTerminatedMsg ≠ pollTimeoutMsg := by
  constructor
  · rw [evRun, List.foldl_append]
    have : (evRun skipEntryDefault events).done = false := h
    simp only [List.foldl_cons, List.foldl_nil]
    rw [show List.foldl (evStep skipEntryDefault) evInit events
        = evRun skipEntryDefault events from rfl]
    simp [evStep, h]
  · decide

/-- Witness for C9: a session that terminates immediately, before any stop,
rejects with the session-terminated error. -/
theorem event_strategy_session_terminated_witness :
    (evRun skipEntryDefault [TrackerEvent.willStop]).outcome
        = .rejected sessionTerminatedMsg
    ∧ sessionTerminatedMsg ≠ pollTimeoutMsg := by
  have h := event_strategy_session_terminated [] rfl
  simpa using h

/-! ## 5. Breakpoint-filtered wait (`waitForBreakpoint`, part_004)

The tracker only reacts to messages with `type === 'event'`,
`event === 'stopped'` and `body.reason === 'breakpoint'`.  It then requests
the stack trace; a missing top frame is ignored, and a thrown request (or a
missing `source.path`, which raises inside the `try`) is caught and ignored.
The stop qualifies exactly when `Uri.file(topFrame.source.path).fsPath`
equals the target breakpoint's `fsPath` and `topFrame.line - 1` (DAP lines
are 1-based, VS Code's are 0-based) equals the target's 0-based line; only
then does the promise resolve and the tracker factory get disposed.
`vscode.Uri.file(...).fsPath` is the host's path normalization, modelled as
the identity on the already-normalized path strings the comparison uses.
Line arithmetic is JavaScript number arithmetic, modelled on `Int`. -/

structure BpFrame where
  sourcePath : Option String
  line : Option Nat
deriving Repr, DecidableEq

structure BpMessage where
  type : String
  event : String
  reason : String
  threadId : Nat
  stRsp : Except String (List BpFrame)
deriving Repr

/-- The target breakpoint's location: `fsPath` plus 0-based line. -/
structure BpTarget where
  fsPath : String
  line : Nat
deriving Repr, DecidableEq

/-- Does this adapter message make `waitForBreakpoint` resolve? -/
def bpMatches (target : BpTarget) (m : BpMessage) : Bool :=
  m.type = "event" && m.event = "stopped" && m.reason = "breakpoint" &&
    (match m.stRsp with
     | .ok (f :: _) =>
       match f.sourcePath, f.line with
       | some p, some L =>
         p = target.fsPath && ((L : Int) - 1 = (target.line : Int))
       | _, _ => false
     | _ => false)

/-- One `onDidSendMessage` invocation: after resolution the factory has been
disposed, so nothing further is observed. -/
def bpStep (target : BpTarget) (resolved : Bool) (m : BpMessage) : Bool :=
  resolved || bpMatches target m

/-- Deliver a sequence of adapter messages to a fresh `waitForBreakpoint`. -/
def bpRun (target : BpTarget) (msgs : List BpMessage) : Bool :=
  msgs.foldl (bpStep target) false

/-- C5: a breakpoint stop with a resolvable top frame resolves the wait if
and only if the frame's source path equals the target file and its 1-based
protocol line minus one equals the target's 0-based line; any resolution
implies such a match, and a non-matching stop is ignored with listening
continuing unchanged. -/
theorem breakpoint_filtered_wait (target : BpTarget) (m : BpMessage)
    (p : String) (L : Nat) (f : BpFrame) (rest : List BpFrame)
    (htype : m.type = "event") (hev : m.event = "stopped")
    (hr : m.reason = "breakpoint") (hrsp : m.stRsp = .ok (f :: rest))
    (hp : f.sourcePath = some p) (hl : f.line = some L) :
    (bpStep target false m = true
      ↔ (p = target.fsPath ∧ (L : Int) - 1 = (target.line : Int)))
    ∧ (∀ m' : BpMessage, bpStep target false m' = true →
        ∃ (f' : BpFrame) (rest' : List BpFrame) (p' : String) (L' : Nat),
          m'.stRsp = .ok (f' :: rest') ∧ f'.sourcePath = some p'
          ∧ f'.line = some L' ∧ p' = target.fsPath
          ∧ (L' : Int) - 1 = (target.line : Int))
    ∧ (bpStep target false m = false →
        ∀ msgs : List BpMessage, bpRun target (m :: msgs) = bpRun target msgs) := by
  refine ⟨?_, ?_, ?_⟩
  · simp [bpStep, bpMatches, htype, hev, hr, hrsp, hp, hl]
  · intro m' hm'
    simp only [bpStep, Bool.false_or] at hm'
    unfold bpMatches at hm'
    rcases hrsp' : m'.stRsp with e | frames
    · rw [hrsp'] at hm'; simp at hm'
    · rw [hrsp'] at hm'
      rcases frames with _ | ⟨f', rest'⟩
      · simp at hm'
      · simp only [Bool.and_eq_true] at hm'
        obtain ⟨-, hloc⟩ := hm'
        rcases hsp : f'.sourcePath with _ | p' <;>
          rcases hln : f'.line with _ | L' <;>
          simp [hsp, hln] at hloc
        exact ⟨f', rest', p', L', rfl, hsp, hln, hloc⟩
  · intro hno msgs
    simp [bpRun, bpStep, Bool.false_or] at hno ⊢
    simp [hno]

/-- Witness for C5: a stop at protocol line 21 resolves a wait targeting
0-based line 20 of the same file, and a stop at protocol line 11 of the same
file is ignored (the spec's file-A-line-10 versus line-20 scenario). -/
theorem breakpoint_filtered_wait_witness :
    (bpStep { fsPath := "/ws/a.test.js", line := 20 } false
        { type := "event", event := "stopped", reason := "breakpoint",
          threadId := 1,
          stRsp := .ok [{ sourcePath := some "/ws/a.test.js", line := some 21 }] }
      = true)
    ∧ (bpStep { fsPath := "/ws/a.test.js", line := 20 } false
        { type := "event", event := "stopped", reason := "breakpoint",
          threadId := 1,
          stRsp := .ok [{ sourcePath := some "/ws/a.test.js", line := some 11 }] }
      = false) :=
  ⟨((breakpoint_filtered_wait { fsPath := "/ws/a.test.js", line := 20 } _
      "/ws/a.test.js" 21 _ [] rfl rfl rfl rfl rfl rfl).1).mpr
        ⟨rfl, by decide⟩,
   by
    have h := (breakpoint_filtered_wait { fsPath := "/ws/a.test.js", line := 20 }
      { type := "event", event := "stopped", reason := "breakpoint",
        threadId := 1,
        stRsp := .ok [{ sourcePath := some "/ws/a.test.js", line := some 11 }] }
      "/ws/a.test.js" 11 _ [] rfl rfl rfl rfl rfl rfl).1
    revert h
    decide⟩

/-! ## 6. Polling-strategy Stop Detector (`waitForNextStop`, `breakpoint_utility.ts`)

Each tick first checks the elapsed time against the timeout
(`Date.now() - started > to` rejects), then inside a `try` requests the
thread list (`thrRsp?.threads?.[0]?.id`; no thread throws), then the top
stack frame (`stRsp.stackFrames?.[0]`; none throws), and resolves with a
summary on success; every caught error — including transport errors — leads
to `setTimeout(tick, poll)`.  Wall-clock time and the adapter's replies are
external: each tick is modelled by its elapsed milliseconds and the two
replies (`.error` models a thrown transport request). -/

structure PollEnv where
  atMs : Nat
  threads : Except String (List Nat)
  frames : Except String (List Frame)
deriving Repr

/-- `opts?.pollIntervalMs ?? 1000`. -/
def pollIntervalOf (opts : Option Nat) : Nat := opts.getD 1000

/-- `opts?.timeoutMs ?? 300_000`. -/
def timeoutOf (opts : Option Nat) : Nat := opts.getD 300000

/-- The summary built by the polling strategy; the reason is hard-coded as
`breakpoint` and the raw top frame is appended through the host's JSON
serializer `render`. -/
def pollSummary (render : Frame → String) (f : Frame) : String :=
  "🛑 Debugger stopped\n" ++ "• reason : breakpoint\n" ++
    "• at     : " ++ frameSrc f ++ ":" ++ toString (f.line.getD 0) ++ ":" ++
    toString (f.column.getD 0) ++ "\n" ++
    "• frame  : " ++ (f.name.getD "<anonymous>") ++ "\n" ++
    "• stackFrame : " ++ render f

inductive PollTick where
  | timeout
  | paused (f : Frame)
  | again (delayMs : Nat)
deriving Repr, DecidableEq

/-- One `tick` of the polling loop. -/
def pollTick (toMs poll : Nat) (e : PollEnv) : PollTick :=
  if e.atMs > toMs then .timeout
  else
    match e.threads with
    | .error _ => .again poll
    | .ok tids =>
      match tids.head? with
      | none => .again poll
      | some _ =>
        match e.frames with
        | .error _ => .again poll
        | .ok frames =>
          match frames.head? with
          | none => .again poll
          | some f => .paused f

inductive PollOutcome where
  | stillPolling
  | resolved (summary : String)
  | rejected (err : String)
deriving Repr, DecidableEq

/-- Run the polling loop over a sequence of tick environments. -/
def pollRun (render : Frame → String) (toMs poll : Nat) :
    List PollEnv → PollOutcome
  | [] => .stillPolling
  | e :: es =>
    match pollTick toMs poll e with
    | .timeout => .rejected pollTimeoutMsg
    | .paused f => .resolved (pollSummary render f)
    | .again _ => pollRun render toMs poll es

/-- A tick on which the detector treats the debuggee as still running: the
threads request threw, reported no thread, the stackTrace request threw, or
returned no frame. -/
def notPausedTick (e : PollEnv) : Bool :=
  match e.threads with
  | .error _ => true
  | .ok tids =>
    match tids.head? with
    | none => true
    | some _ =>
      match e.frames with
      | .error _ => true
      | .ok frames => frames.isEmpty

theorem pollTick_again (toMs poll : Nat) (e : PollEnv)
    (hle : e.atMs ≤ toMs) (hnp : notPausedTick e = true) :
    pollTick toMs poll e = .again poll := by
  unfold pollTick
  unfold notPausedTick at hnp
  rw [if_neg (by omega)]
  repeat' first
    | rfl
    | split
  all_goals simp_all [List.isEmpty_iff]

theorem pollRun_skips_notPaused (render : Frame → String) (toMs poll : Nat)
    (pre : List PollEnv)
    (hpre : ∀ e ∈ pre, e.atMs ≤ toMs ∧ notPausedTick e = true) :
    ∀ rest : List PollEnv,
      pollRun render toMs poll (pre ++ rest) = pollRun render toMs poll rest := by
  induction pre with
  | nil => intro rest; rfl
  | cons e es ih =>
    intro rest
    obtain ⟨hle, hnp⟩ := hpre e (List.mem_cons_self e es)
    have hstep := pollTick_again toMs poll e hle hnp
    simp only [List.cons_append, pollRun, hstep]
    exact ih (fun x hx => hpre x (List.mem_cons_of_mem e hx)) rest

/-- C7: while every tick reports no thread, no frame, or a thrown transport
request, the wait stays unresolved and each such tick schedules the next one
after the poll interval (default 1000 ms); the wait resolves with a pause
summary on the first tick yielding a valid top stack frame, and rejects with
the timeout error on a tick that starts more than the timeout (default
300000 ms) after the wait began. -/
theorem polling_wait_behaviour (render : Frame → String) (toMs poll : Nat)
    (pre : List PollEnv) (g b : PollEnv) (tid : Nat) (tids : List Nat)
    (f : Frame) (fs rest : List Frame)
    (hpre : ∀ e ∈ pre, e.atMs ≤ toMs ∧ notPausedTick e = true)
    (hg : g.atMs ≤ toMs) (hgt : g.threads = .ok (tid :: tids))
    (hgf : g.frames = .ok (f :: fs)) (hb : b.atMs > toMs) :
    (∀ e ∈ pre, pollTick toMs poll e = .again poll)
    ∧ pollRun render toMs poll pre = .stillPolling
    ∧ (∀ tail : List PollEnv,
        pollRun render toMs poll (pre ++ g :: tail)
          = .resolved (pollSummary render f))
    ∧ (∀ tail : List PollEnv,
        pollRun render toMs poll (pre ++ b :: tail) = .rejected pollTimeoutMsg)
    ∧ pollIntervalOf none = 1000 ∧ timeoutOf none = 300000 := by
  refine ⟨?_, ?_, ?_, ?_, rfl, rfl⟩
  · intro e he
    exact pollTick_again toMs poll e (hpre e he).1 (hpre e he).2
  · have h := pollRun_skips_notPaused render toMs poll pre hpre []
    simpa using h
  · intro tail
    rw [pollRun_skips_notPaused render toMs poll pre hpre]
    have hstep : pollTick toMs poll g = .paused f := by
      unfold pollTick
      rw [if_neg (by omega), hgt, hgf]
      rfl
    simp [pollRun, hstep]
  · intro tail
    rw [pollRun_skips_notPaused render toMs poll pre hpre]
    have hstep : pollTick toMs poll b = .timeout := by
      unfold pollTick
      rw [if_pos (by omega)]
    simp [pollRun, hstep]

/-- Witness for C7: with the default 300 s timeout, two not-paused ticks
(no threads yet, then a thrown stackTrace) followed by a tick with a valid
frame resolve the wait; a tick past the timeout rejects it. -/
theorem polling_wait_behaviour_witness :
    (pollRun (fun _ => "{}") (timeoutOf none) (pollIntervalOf none)
        [{ atMs := 0, threads := .ok [], frames := .ok [] },
         { atMs := 1000, threads := .ok [1], frames := .error "socket closed" },
         { atMs := 2000, threads := .ok [1],
           frames := .ok [{ sourcePath := some "/ws/tests/sum.test.js",
                            sourceName := none, line := some 12,
                            column := some 3, name := some "sum" }] }]
      = .resolved (pollSummary (fun _ => "{}")
          { sourcePath := some "/ws/tests/sum.test.js", sourceName := none,
            line := some 12, column := some 3, name := some "sum" }))
    ∧ (pollRun (fun _ => "{}") (timeoutOf none) (pollIntervalOf none)
        [{ atMs := 0, threads := .ok [], frames := .ok [] },
         { atMs := 300001, threads := .ok [], frames := .ok [] }]
      = .rejected pollTimeoutMsg) :=
  ⟨by
    have h := (polling_wait_behaviour (fun _ => "{}") (timeoutOf none)
      (pollIntervalOf none)
      [{ atMs := 0, threads := .ok [], frames := .ok [] },
       { atMs := 1000, threads := .ok [1], frames := .error "socket closed" }]
      { atMs := 2000, threads := .ok [1],
        frames := .ok [{ sourcePath := some "/ws/tests/sum.test.js",
                         sourceName := none, line := some 12,
                         column := some 3, name := some "sum" }] }
      { atMs := 300001, threads := .ok [], frames := .ok [] }
      1 [] _ [] []
      (by intro e he; fin_cases he <;> exact ⟨by norm_num [timeoutOf], rfl⟩)
      (by norm_num [timeoutOf]) rfl rfl (by norm_num [timeoutOf])).2.2.1 []
    simpa using h,
   by
    have h := (polling_wait_behaviour (fun _ => "{}") (timeoutOf none)
      (pollIntervalOf none)
      [{ atMs := 0, threads := .ok [], frames := .ok [] }]
      { atMs := 2000, threads := .ok [1],
        frames := .ok [{ sourcePath := some "/ws/tests/sum.test.js",
                         sourceName := none, line := some 12,
                         column := some 3, name := some "sum" }] }
      { atMs := 300001, threads := .ok [], frames := .ok [] }
      1 [] _ [] []
      (by intro e he; fin_cases he <;> exact ⟨by norm_num [timeoutOf], rfl⟩)
      (by norm_num [timeoutOf]) rfl rfl (by norm_num [timeoutOf])).2.2.2.1 []
    simpa using h⟩

/-! ## 7. Orchestrator ordering (`debugJestTest`, part_004)

The orchestration body runs strictly sequentially: spawn the bootstrap
process, await the ready pattern, `await vscode.debug.startDebugging(...)`,
and only inside the `attachStarted === true` branch — after an awaited 1 s
delay — send `{ command: 'runJestTests' }` over IPC (and only when the
child's IPC channel is connected; otherwise it throws).  When attach fails
it throws instead.  We record the observable actions in order. -/

inductive OrchAct where
  | spawnProc
  | readyObserved
  | attachRequest
  | attachDone (ok : Bool)
  | delay (ms : Nat)
  | sendStart
  | errorOut
deriving Repr, DecidableEq

/-- The ordered action trace of `debugJestTest` (part_004, stages 3–4),
parameterized by the attach outcome and the IPC channel state. -/
def debugJestTestTrace (attachOk connected : Bool) : List OrchAct :=
  [.spawnProc, .readyObserved, .attachRequest, .attachDone attachOk] ++
    (if attachOk then
      .delay 1000 :: (if connected then [.sendStart] else [.errorOut])
    else [.errorOut])

/-- C6: the start signal is sent only when the attach step completed
successfully, and in the trace every send of the start signal is strictly
preceded by the successful attach completion; a failed attach never sends
it. -/
theorem signal_only_after_attach (attachOk connected : Bool) :
    (OrchAct.sendStart ∈ debugJestTestTrace attachOk connected →
      attachOk = true)
    ∧ (∀ i : Fin (debugJestTestTrace attachOk connected).length,
        (debugJestTestTrace attachOk connected).get i = OrchAct.sendStart →
        ∃ j : Fin (debugJestTestTrace attachOk connected).length,
          (j : Nat) < (i : Nat)
          ∧ (debugJestTestTrace attachOk connected).get j
              = OrchAct.attachDone true) := by
  cases attachOk <;> cases connected <;> exact ⟨by decide, by decide⟩

/-- Witness for C6: in the successful trace the start signal sits at index 5,
after the attach completion at index 3. -/
theorem signal_only_after_attach_witness :
    (true = true)
    ∧ ∃ j : Fin (debugJestTestTrace true true).length,
        (j : Nat) < 5
        ∧ (debugJestTestTrace true true).get j = OrchAct.attachDone true :=
  ⟨(signal_only_after_attach true true).1 (by decide),
   (signal_only_after_attach true true).2 ⟨5, by decide⟩ (by decide)⟩

/-! ## 8. `debugJestTest` result discipline (`debug_jest_test.ts`)

The whole body of `debugJestTest` sits inside one `try`; each validation
failure returns an `isError: true` result directly, later failures (launch
timeout, `startDebugging` returning false, a rejected stop-wait) throw and
are converted by the `catch` block into an `isError: true` result, and the
success path returns the pause summary with `isError: false`.  The promise
itself always fulfills.  The host facilities (workspace lookup, the
filesystem walk of `findNearestJestBin`, the launch, attach and stop-wait)
are external and enter as the environment. -/

structure ToolResult where
  text : String
  isError : Bool
deriving Repr, DecidableEq

structure DebugEnv where
  testFilePath : String
  workspaceFound : Bool
  jestFound : Bool
  launch : Except String Unit
  attachStart : Except String Bool
  waitStop : Except String String

/-- The `try` body of `debugJestTest`: `.error` is a thrown exception that
the surrounding `catch` will convert. -/
def debugJestTestBody (env : DebugEnv) : Except String ToolResult :=
  if env.testFilePath = "" then
    .ok { text := "Error: Test file path is required.", isError := true }
  else if !env.workspaceFound then
    .ok { text := "Error: Could not find workspace folder for file: "
            ++ env.testFilePath,
          isError := true }
  else if !env.jestFound then
    .ok { text := "Could not find Jest. Install it with \"npm i -D jest\"",
          isError := true }
  else
    match env.launch with
    | .error e => .error e
    | .ok _ =>
      match env.attachStart with
      | .error e => .error e
      | .ok false => .error "Could not start debug session."
      | .ok true =>
        match env.waitStop with
        | .error e => .error e
        | .ok pauseInfo => .ok { text := pauseInfo, isError := false }

/-- `debugJestTest` with its `catch`: a total function into results — the
returned promise always fulfills. -/
def debugJestTest (env : DebugEnv) : ToolResult :=
  match debugJestTestBody env with
  | .ok r => r
  | .error e => { text := "Failed to debug Jest test: " ++ e, isError := true }

/-- C10: `debugJestTest` always returns a result value (it is total by
construction — never a rejected promise), and the result has `isError =
false` exactly when no failure condition occurred: nonempty test-file path,
workspace found, Jest binary found, launch succeeded, attach succeeded and
the stop-wait resolved; every thrown error is converted to an `isError =
true` result carrying a textual message. -/
theorem debugJestTest_total_error_discipline (env : DebugEnv) :
    ((debugJestTest env).isError = false
      ↔ (env.testFilePath ≠ "" ∧ env.workspaceFound = true
          ∧ env.jestFound = true ∧ (∃ u, env.launch = .ok u)
          ∧ env.attachStart = .ok true ∧ ∃ s, env.waitStop = .ok s))
    ∧ (∀ e, debugJestTestBody env = .error e →
        debugJestTest env
          = { text := "Failed to debug Jest test: " ++ e, isError := true }) := by
  constructor
  · unfold debugJestTest debugJestTestBody
    obtain ⟨p, w, j, l, a, ws⟩ := env
    by_cases hp : p = "" <;> simp only [hp]
    · simp
    · cases w <;> cases j <;>
        rcases l with el | u <;>
        rcases a with ea | (_ | _) <;>
        rcases ws with ews | s <;>
        simp_all
  · intro e he
    unfold debugJestTest
    rw [he]

/-- Witness for C10: a fully successful environment yields `isError = false`,
and an environment whose attach throws yields the caught error text. -/
theorem debugJestTest_total_error_discipline_witness :
    (debugJestTest
        { testFilePath := "/ws/tests/sum.test.js", workspaceFound := true,
          jestFound := true, launch := .ok (), attachStart := .ok true,
          waitStop := .ok "🛑 Debugger stopped" }).isError = false
    ∧ debugJestTest
        { testFilePath := "/ws/tests/sum.test.js", workspaceFound := true,
          jestFound := true, launch := .ok (), attachStart := .error "ECONNREFUSED",
          waitStop := .ok "unused" }
      = { text := "Failed to debug Jest test: " ++ "ECONNREFUSED",
          isError := true } :=
  ⟨(debugJestTest_total_error_discipline
      { testFilePath := "/ws/tests/sum.test.js", workspaceFound := true,
        jestFound := true, launch := .ok (), attachStart := .ok true,
        waitStop := .ok "🛑 Debugger stopped" }).1.mpr
    ⟨by decide, rfl, rfl, ⟨(), rfl⟩, rfl, ⟨"🛑 Debugger stopped", rfl⟩⟩,
   (debugJestTest_total_error_discipline
      { testFilePath := "/ws/tests/sum.test.js", workspaceFound := true,
        jestFound := true, launch := .ok (), attachStart := .error "ECONNREFUSED",
        waitStop := .ok "unused" }).2 "ECONNREFUSED" rfl⟩

end Spec2Proof
